import Mathlib

/-!
A shallow embedding of the protocol-dispatch and search-adapter core of the
perplexity-mcp-golang repository, together with theorems checking the
specification's claims against it.

Embedding conventions:
* Go sentinel errors (`domain/errors.go`) become the `ErrKind` enumeration; a
  Go error value produced by `fmt.Errorf("%w: ...", sentinel, ...)` becomes a
  `GoErr` carrying the sentinel it wraps plus a message string.  A plain
  `fmt.Errorf` with no `%w` sentinel is `ErrKind.plain`.
* Go `map[string]X` values are association lists with insert-or-replace
  update; Go slices are lists; Go strings are Lean strings, with `len`
  modelled as character count (the repository's bounds are over ASCII data).
* `strings.TrimSpace`, `strings.Split(v, ",")` and `strings.ToLower` are
  re-implemented character-wise (ASCII case folding) so that every
  definition evaluates by kernel reduction.
* `strconv.ParseFloat` is abstracted as an explicit parameter
  `pf : String → Option ℚ` (the parsed value on success); every theorem
  quantifies over it.  `strconv.ParseBool` is implemented exactly.
* I/O boundaries (JSON (un)marshalling, the HTTP transport) are modelled by
  their outcome: a parse either fails or yields the decoded value, and the
  HTTP layer is a record of status code, full body length and the two
  possible parses of the body.
-/

deriving instance DecidableEq for Except

namespace PMCP

/-! ## Domain error taxonomy (internal/core/domain/errors.go) -/

inductive ErrKind where
  | apiKeyMissing
  | invalidQuery
  | invalidModel
  | invalidRequest
  | rateLimited
  | apiError
  | networkError
  | timeoutErr
  | toolNotFound
  | toolExecution
  | mcpProtocol
  | configurationError
  | plain
deriving DecidableEq, Repr

/-- A Go error value: the sentinel it wraps (`errors.Is`) plus its message. -/
structure GoErr where
  kind : ErrKind
  msg : String
deriving DecidableEq, Repr

/-! ## Character-wise string helpers (models of Go strings functions) -/

/-- Model of Go `unicode.IsSpace` restricted to ASCII whitespace. -/
def isSpaceGo (c : Char) : Bool :=
  c = ' ' || c = '\t' || c = '\n' || c = '\r' || c = '\x0b' || c = '\x0c'

/-- Model of Go `strings.TrimSpace`. -/
def trimChars (s : String) : String :=
  ⟨((s.data.dropWhile isSpaceGo).reverse.dropWhile isSpaceGo).reverse⟩

/-- Model of Go `strings.ToLower` (ASCII case folding). -/
def toLowerGo (s : String) : String :=
  ⟨s.data.map Char.toLower⟩

/-- Model of Go `strings.Split(s, ",")`: split at every comma. -/
def splitComma (s : String) : List String :=
  (s.data.foldr
    (fun c acc =>
      if c = ',' then [] :: acc
      else match acc with
        | h :: t => (c :: h) :: t
        | [] => [[c]])
    [[]]).map fun l => ⟨l⟩

/-! ## SearchRequest and Validate (internal/core/domain/entities.go) -/

def MaxQueryLength : Nat := 10000

def MaxOptionsCount : Nat := 20

def MaxOptionKeyLength : Nat := 100

def MaxOptionValueLength : Nat := 1000

def MaxSourcesCount : Nat := 10

structure SearchRequest where
  query : String
  model : String := ""
  searchMode : String := ""
  maxTokens : Int := 0
  dateRange : String := ""
  sources : List String := []
  options : List (String × String) := []
deriving Repr

def validSonarModels : List String :=
  ["sonar", "sonar-pro", "sonar-reasoning", "sonar-reasoning-pro", "sonar-deep-research"]

def validSearchModes : List String := ["web", "academic", "news"]

def validDateRanges : List String := ["day", "week", "month", "year"]

/-- The per-entry scan over the Options map at the end of `Validate`
(the `for key, value := range r.Options` loop in entities.go). -/
def optionEntryScan (opts : List (String × String)) : Option GoErr :=
  match opts.find?
      (fun kv => decide (kv.1.length > MaxOptionKeyLength)
        || decide (kv.2.length > MaxOptionValueLength)) with
  | some kv =>
      if kv.1.length > MaxOptionKeyLength then
        some ⟨.invalidRequest, "option key length exceeds maximum"⟩
      else some ⟨.invalidRequest, "option value length exceeds maximum"⟩
  | none => none

/-- `SearchRequest.Validate` from entities.go, check for check in source order. -/
def SearchRequest.validate (r : SearchRequest) : Option GoErr :=
  if trimChars r.query = "" then some ⟨.invalidQuery, "invalid search query"⟩
  else if r.query.length > MaxQueryLength then
    some ⟨.invalidRequest, "query length exceeds maximum"⟩
  else if r.maxTokens < 0 then
    some ⟨.invalidRequest, "max_tokens cannot be negative"⟩
  else if r.maxTokens > 128000 then
    some ⟨.invalidRequest, "max_tokens exceeds maximum 128000"⟩
  else if r.model ≠ "" ∧ r.model ∉ validSonarModels then
    some ⟨.invalidRequest, "invalid model"⟩
  else if r.searchMode ≠ "" ∧ r.searchMode ∉ validSearchModes then
    some ⟨.invalidRequest, "invalid search_mode"⟩
  else if r.dateRange ≠ "" ∧ r.dateRange ∉ validDateRanges then
    some ⟨.invalidRequest, "invalid date_range"⟩
  else if r.sources.length > MaxSourcesCount then
    some ⟨.invalidRequest, "sources count exceeds maximum"⟩
  else if r.options.length > MaxOptionsCount then
    some ⟨.invalidRequest, "options count exceeds maximum"⟩
  else optionEntryScan r.options

/-- The validity condition stated by the specification for `Validate`. -/
def ValidSearchRequest (r : SearchRequest) : Prop :=
  trimChars r.query ≠ "" ∧ r.query.length ≤ MaxQueryLength ∧
  0 ≤ r.maxTokens ∧ r.maxTokens ≤ 128000 ∧
  (r.model = "" ∨ r.model ∈ validSonarModels) ∧
  (r.searchMode = "" ∨ r.searchMode ∈ validSearchModes) ∧
  (r.dateRange = "" ∨ r.dateRange ∈ validDateRanges) ∧
  r.sources.length ≤ MaxSourcesCount ∧
  r.options.length ≤ MaxOptionsCount ∧
  ∀ kv ∈ r.options, kv.1.length ≤ MaxOptionKeyLength ∧ kv.2.length ≤ MaxOptionValueLength

instance (r : SearchRequest) : Decidable (ValidSearchRequest r) := by
  unfold ValidSearchRequest
  infer_instance

lemma optionEntryScan_eq_none_iff (opts : List (String × String)) :
    optionEntryScan opts = none ↔
      ∀ kv ∈ opts, kv.1.length ≤ MaxOptionKeyLength ∧ kv.2.length ≤ MaxOptionValueLength := by
  rcases hf : opts.find?
      (fun kv => decide (kv.1.length > MaxOptionKeyLength)
        || decide (kv.2.length > MaxOptionValueLength)) with _ | kv
  · have hf2 := hf
    rw [List.find?_eq_none] at hf2
    simp only [optionEntryScan, hf, true_iff]
    intro kv hkv
    have := hf2 kv hkv
    simp only [Bool.or_eq_true, decide_eq_true_eq, not_or] at this
    omega
  · have hp := List.find?_some hf
    have hm := List.mem_of_find?_eq_some hf
    simp only [Bool.or_eq_true, decide_eq_true_eq] at hp
    refine iff_of_false ?_ ?_
    · simp only [optionEntryScan, hf]
      split_ifs <;> simp
    · intro hall
      have := hall kv hm
      omega

lemma validate_eq_none_iff (r : SearchRequest) :
    r.validate = none ↔ ValidSearchRequest r := by
  unfold SearchRequest.validate
  split
  case isTrue h1 =>
    exact iff_of_false (by simp) (fun hv => hv.1 h1)
  case isFalse h1 =>
  split
  case isTrue h2 =>
    exact iff_of_false (by simp) (fun hv => absurd hv.2.1 (by omega))
  case isFalse h2 =>
  split
  case isTrue h3 =>
    exact iff_of_false (by simp) (fun hv => absurd hv.2.2.1 (by omega))
  case isFalse h3 =>
  split
  case isTrue h4 =>
    exact iff_of_false (by simp) (fun hv => absurd hv.2.2.2.1 (by omega))
  case isFalse h4 =>
  split
  case isTrue h5 =>
    exact iff_of_false (by simp) (fun hv => (hv.2.2.2.2.1).elim h5.1 h5.2)
  case isFalse h5 =>
  split
  case isTrue h6 =>
    exact iff_of_false (by simp) (fun hv => (hv.2.2.2.2.2.1).elim h6.1 h6.2)
  case isFalse h6 =>
  split
  case isTrue h7 =>
    exact iff_of_false (by simp) (fun hv => (hv.2.2.2.2.2.2.1).elim h7.1 h7.2)
  case isFalse h7 =>
  split
  case isTrue h8 =>
    exact iff_of_false (by simp) (fun hv => absurd hv.2.2.2.2.2.2.2.1 (by omega))
  case isFalse h8 =>
  split
  case isTrue h9 =>
    exact iff_of_false (by simp) (fun hv => absurd hv.2.2.2.2.2.2.2.2.1 (by omega))
  case isFalse h9 =>
  rw [optionEntryScan_eq_none_iff]
  unfold ValidSearchRequest
  rw [not_and_or, not_not] at h5 h6 h7
  constructor
  · intro hall
    refine ⟨h1, by omega, by omega, by omega, ?_, ?_, ?_, by omega, by omega, hall⟩
    · rcases h5 with h | h
      · exact .inl h
      · exact .inr (not_not.mp h)
    · rcases h6 with h | h
      · exact .inl h
      · exact .inr (not_not.mp h)
    · rcases h7 with h | h
      · exact .inl h
      · exact .inr (not_not.mp h)
  · intro hv
    exact hv.2.2.2.2.2.2.2.2.2

/-! ## Domain result shapes (entities.go) -/

structure Usage where
  promptTokens : Int
  completionTokens : Int
  totalTokens : Int
deriving DecidableEq, Repr

structure Citation where
  number : Int
  url : String
  title : String
deriving DecidableEq, Repr

structure Source where
  url : String
  title : String
  snippet : String
deriving DecidableEq, Repr

/-- `domain.SearchResult`; the Go `time.Time` Created field is kept as the
Unix timestamp it is constructed from. -/
structure SearchResult where
  id : String
  content : String
  model : String
  usage : Usage
  citations : List Citation
  sources : List Source
  created : Int
deriving DecidableEq, Repr

/-! ## Perplexity API wire shapes (internal/adapters/perplexity/models.go) -/

structure APIMessage where
  role : String
  content : String
deriving DecidableEq, Repr

structure APIChatRequest where
  model : String
  messages : List APIMessage
  maxTokens : Option Int := none
  temperature : Option Rat := none
  topP : Option Rat := none
  stream : Bool := false
  searchMode : String := ""
  disableSearch : Option Bool := none
  searchDomainFilter : List String := []
  reasoningEffort : String := ""
deriving DecidableEq, Repr

structure APIUsage where
  promptTokens : Int
  completionTokens : Int
  totalTokens : Int
deriving DecidableEq, Repr

structure APICitation where
  number : Int
  url : String
  title : String
deriving DecidableEq, Repr

structure APISource where
  url : String
  title : String
  snippet : String
deriving DecidableEq, Repr

structure APIChoice where
  index : Int
  message : APIMessage
  finishReason : String
deriving DecidableEq, Repr

structure APIChatResponse where
  id : String := ""
  object : String := ""
  created : Int := 0
  model : String := ""
  choices : List APIChoice := []
  usage : APIUsage := ⟨0, 0, 0⟩
  citations : List APICitation := []
  sources : List APISource := []
deriving DecidableEq, Repr

/-- `APIChatResponse.GetContent` from models.go. -/
def APIChatResponse.getContent (r : APIChatResponse) : String :=
  match r.choices with
  | c :: _ => c.message.content
  | [] => ""

/-! ## Response mapping (internal/adapters/perplexity/mapper.go) -/

/-- `APIResponseToSearchResult` from mapper.go. -/
def APIResponseToSearchResult (apiResp : APIChatResponse) : SearchResult :=
  { id := apiResp.id
    content := apiResp.getContent
    model := apiResp.model
    usage := ⟨apiResp.usage.promptTokens, apiResp.usage.completionTokens,
      apiResp.usage.totalTokens⟩
    citations :=
      if apiResp.citations.length > 0 then
        apiResp.citations.map fun c => ⟨c.number, c.url, c.title⟩
      else []
    sources :=
      if apiResp.sources.length > 0 then
        apiResp.sources.map fun s => ⟨s.url, s.title, s.snippet⟩
      else []
    created := apiResp.created }

/-! ## Option processing (mapper.go processSearchOptions)

`strconv.ParseFloat` is abstracted as `pf : String → Option ℚ`; everything
else is concrete. -/

/-- Exact model of Go `strconv.ParseBool`. -/
def parseBool (s : String) : Option Bool :=
  if s ∈ ["1", "t", "T", "TRUE", "true", "True"] then some true
  else if s ∈ ["0", "f", "F", "FALSE", "false", "False"] then some false
  else none

/-- One entry of the `search_domain_filter` loop in processSearchOptions:
kept iff non-empty after trimming, at most 253 chars, and free of slash and
space. -/
def validDomainEntry (d : String) : Bool :=
  !(d = "") && decide (d.length ≤ 253) && !(d.data.contains '/') && !(d.data.contains ' ')

/-- The valid-domain list a `search_domain_filter` option value yields. -/
def parseDomainFilter (v : String) : List String :=
  ((splitComma v).map trimChars).filter validDomainEntry

/-- One iteration of the option loop in `processSearchOptions`. -/
def processOption (pf : String → Option Rat) (apiReq : APIChatRequest)
    (kv : String × String) : Except GoErr APIChatRequest :=
  if kv.1.length > MaxOptionKeyLength then .ok apiReq
  else if kv.2.length > MaxOptionValueLength then
    .error ⟨.plain, "option value for key is too long"⟩
  else if toLowerGo kv.1 = "temperature" then
    .ok (match pf kv.2 with
      | some t => if 0 ≤ t ∧ t ≤ 2 then { apiReq with temperature := some t } else apiReq
      | none => apiReq)
  else if toLowerGo kv.1 = "top_p" then
    .ok (match pf kv.2 with
      | some t => if 0 ≤ t ∧ t ≤ 1 then { apiReq with topP := some t } else apiReq
      | none => apiReq)
  else if toLowerGo kv.1 = "disable_search" then
    .ok (match parseBool kv.2 with
      | some b => { apiReq with disableSearch := some b }
      | none => apiReq)
  else if toLowerGo kv.1 = "search_domain_filter" then
    if kv.2.length > 3000 then .error ⟨.plain, "search_domain_filter value too long"⟩
    else if (parseDomainFilter kv.2).length > 10 then
      .error ⟨.plain, "too many domains in search_domain_filter"⟩
    else if (parseDomainFilter kv.2).length > 0 then
      .ok { apiReq with searchDomainFilter := parseDomainFilter kv.2 }
    else .ok apiReq
  else if toLowerGo kv.1 = "search_mode" then
    .ok (if kv.2 ∈ validSearchModes then { apiReq with searchMode := kv.2 } else apiReq)
  else .ok apiReq

/-- `processSearchOptions` from mapper.go: the option loop with early error
return.  The Go map is modelled as the association list `opts`. -/
def processSearchOptions (pf : String → Option Rat) (apiReq : APIChatRequest) :
    List (String × String) → Except GoErr APIChatRequest
  | [] => .ok apiReq
  | kv :: rest =>
    match processOption pf apiReq kv with
    | .error e => .error e
    | .ok a2 => processSearchOptions pf a2 rest

/-- The wire request `SearchRequestToAPI` builds before option processing:
a single user message around the query, optional max-token cap, and the
Sources list as initial domain filter. -/
def initialAPIRequest (req : SearchRequest) : APIChatRequest :=
  { model := req.model
    messages := [⟨"user", req.query⟩]
    maxTokens := if req.maxTokens > 0 then some req.maxTokens else none
    searchMode := req.searchMode
    searchDomainFilter := if req.sources.length > 0 then req.sources else [] }

/-- `SearchRequestToAPI` from mapper.go. -/
def SearchRequestToAPI (pf : String → Option Rat) (req : SearchRequest) :
    Except GoErr APIChatRequest :=
  match processSearchOptions pf (initialAPIRequest req) req.options with
  | .ok a => .ok a
  | .error e => .error ⟨e.kind, "failed to process search options: " ++ e.msg⟩

/-- The condition under which one entry of the option loop aborts the whole
conversion: the key passes the length gate (over-long keys are skipped) and
either the value is over-long, or the entry is a `search_domain_filter`
whose comma-separated value yields more than 10 valid domains.  (The 3000
char filter check inside the branch is unreachable: the 1000 char value
gate has already fired.) -/
def optionFails (kv : String × String) : Bool :=
  decide (kv.1.length ≤ MaxOptionKeyLength) &&
    (decide (kv.2.length > MaxOptionValueLength) ||
      (decide (toLowerGo kv.1 = "search_domain_filter") &&
        decide ((parseDomainFilter kv.2).length > 10)))

lemma processOption_error_iff (pf : String → Option Rat) (a : APIChatRequest)
    (kv : String × String) :
    (∃ e, processOption pf a kv = .error e) ↔ optionFails kv = true := by
  have hMV : MaxOptionValueLength = 1000 := rfl
  unfold processOption optionFails
  simp only [Bool.and_eq_true, Bool.or_eq_true, decide_eq_true_eq]
  by_cases h1 : kv.1.length > MaxOptionKeyLength
  · rw [if_pos h1]
    exact iff_of_false (by rintro ⟨e, he⟩; exact Except.noConfusion he)
      (fun hc => absurd hc.1 (by omega))
  rw [if_neg h1]
  by_cases h2 : kv.2.length > MaxOptionValueLength
  · rw [if_pos h2]
    exact iff_of_true ⟨_, rfl⟩ ⟨by omega, Or.inl h2⟩
  rw [if_neg h2]
  by_cases h3 : toLowerGo kv.1 = "temperature"
  · rw [if_pos h3]
    refine iff_of_false (by rintro ⟨e, he⟩; exact Except.noConfusion he) (fun hc => ?_)
    rcases hc.2 with hv | hs
    · exact absurd hv h2
    · rw [h3] at hs
      exact absurd hs.1 (by decide)
  rw [if_neg h3]
  by_cases h4 : toLowerGo kv.1 = "top_p"
  · rw [if_pos h4]
    refine iff_of_false (by rintro ⟨e, he⟩; exact Except.noConfusion he) (fun hc => ?_)
    rcases hc.2 with hv | hs
    · exact absurd hv h2
    · rw [h4] at hs
      exact absurd hs.1 (by decide)
  rw [if_neg h4]
  by_cases h5 : toLowerGo kv.1 = "disable_search"
  · rw [if_pos h5]
    refine iff_of_false (by rintro ⟨e, he⟩; exact Except.noConfusion he) (fun hc => ?_)
    rcases hc.2 with hv | hs
    · exact absurd hv h2
    · rw [h5] at hs
      exact absurd hs.1 (by decide)
  rw [if_neg h5]
  by_cases h6 : toLowerGo kv.1 = "search_domain_filter"
  · rw [if_pos h6, if_neg (show ¬kv.2.length > 3000 by omega)]
    by_cases h8 : (parseDomainFilter kv.2).length > 10
    · rw [if_pos h8]
      exact iff_of_true ⟨_, rfl⟩ ⟨by omega, Or.inr ⟨h6, h8⟩⟩
    · rw [if_neg h8]
      refine iff_of_false ?_ (fun hc => ?_)
      · rintro ⟨e, he⟩
        split at he <;> exact Except.noConfusion he
      · rcases hc.2 with hv | hs
        · exact absurd hv h2
        · exact absurd hs.2 h8
  rw [if_neg h6]
  by_cases h9 : toLowerGo kv.1 = "search_mode"
  · rw [if_pos h9]
    refine iff_of_false (by rintro ⟨e, he⟩; exact Except.noConfusion he) (fun hc => ?_)
    rcases hc.2 with hv | hs
    · exact absurd hv h2
    · exact absurd hs.1 h6
  · rw [if_neg h9]
    refine iff_of_false (by rintro ⟨e, he⟩; exact Except.noConfusion he) (fun hc => ?_)
    rcases hc.2 with hv | hs
    · exact absurd hv h2
    · exact absurd hs.1 h6

lemma processOption_model (pf : String → Option Rat) (a a2 : APIChatRequest)
    (kv : String × String) (h : processOption pf a kv = .ok a2) :
    a2.model = a.model := by
  unfold processOption at h
  repeat' split at h
  all_goals try exact Except.noConfusion h
  all_goals injection h with h2
  all_goals subst h2
  all_goals rfl

lemma processSearchOptions_error_iff (pf : String → Option Rat)
    (a : APIChatRequest) (opts : List (String × String)) :
    (∃ e, processSearchOptions pf a opts = .error e) ↔
      ∃ kv ∈ opts, optionFails kv = true := by
  induction opts generalizing a with
  | nil =>
    unfold processSearchOptions
    simp
  | cons kv rest ih =>
    rcases hp : processOption pf a kv with e | a2
    · have hf : optionFails kv = true := (processOption_error_iff pf a kv).mp ⟨e, hp⟩
      constructor
      · intro _
        exact ⟨kv, List.mem_cons_self kv rest, hf⟩
      · intro _
        refine ⟨e, ?_⟩
        conv_lhs => rw [processSearchOptions]
        rw [hp]
    · have hf : optionFails kv = false := by
        by_contra hc
        have ht : optionFails kv = true := by
          revert hc
          cases optionFails kv <;> simp
        obtain ⟨e, he⟩ := (processOption_error_iff pf a kv).mpr ht
        rw [hp] at he
        exact Except.noConfusion he
      have hstep : processSearchOptions pf a (kv :: rest) = processSearchOptions pf a2 rest := by
        conv_lhs => rw [processSearchOptions]
        rw [hp]
      rw [hstep, ih a2]
      constructor
      · rintro ⟨kv2, hmem, hkf⟩
        exact ⟨kv2, List.mem_cons_of_mem kv hmem, hkf⟩
      · rintro ⟨kv2, hmem, hkf⟩
        rcases List.mem_cons.mp hmem with rfl | hmem2
        · rw [hf] at hkf
          exact Bool.noConfusion hkf
        · exact ⟨kv2, hmem2, hkf⟩

lemma processSearchOptions_model (pf : String → Option Rat)
    (a a2 : APIChatRequest) (opts : List (String × String))
    (h : processSearchOptions pf a opts = .ok a2) : a2.model = a.model := by
  induction opts generalizing a with
  | nil =>
    unfold processSearchOptions at h
    injection h with h2
    rw [h2]
  | cons kv rest ih =>
    unfold processSearchOptions at h
    rcases hp : processOption pf a kv with e | amid
    · rw [hp] at h
      exact Except.noConfusion h
    · rw [hp] at h
      rw [ih amid h, processOption_model pf a amid kv hp]

lemma searchRequestToAPI_model (pf : String → Option Rat) (req : SearchRequest)
    (a : APIChatRequest) (h : SearchRequestToAPI pf req = .ok a) :
    a.model = req.model := by
  unfold SearchRequestToAPI at h
  rcases hp : processSearchOptions pf (initialAPIRequest req) req.options with e | a2
  · rw [hp] at h
    exact Except.noConfusion h
  · rw [hp] at h
    injection h with h2
    rw [← h2]
    exact processSearchOptions_model pf (initialAPIRequest req) a2 req.options hp

/-! ## HTTP error mapping and the capped body read (client.go) -/

def DefaultModel : String := "sonar"

def MaxResponseSize : Nat := 10 * 1024 * 1024

/-- `mapAPIError` from client.go (structured upstream error). -/
def mapAPIError (statusCode : Nat) (message : String) : GoErr :=
  if statusCode = 400 then ⟨.invalidRequest, message⟩
  else if statusCode = 401 then ⟨.apiKeyMissing, message⟩
  else if statusCode = 429 then ⟨.rateLimited, message⟩
  else if statusCode = 500 ∨ statusCode = 502 ∨ statusCode = 503 then ⟨.apiError, message⟩
  else ⟨.apiError, "HTTP " ++ toString statusCode ++ ": " ++ message⟩

/-- `mapStatusCodeError` from client.go (no structured error available). -/
def mapStatusCodeError (statusCode : Nat) : GoErr :=
  if statusCode = 400 then ⟨.invalidRequest, "bad request"⟩
  else if statusCode = 401 then ⟨.apiKeyMissing, "unauthorized"⟩
  else if statusCode = 429 then ⟨.rateLimited, "rate limited"⟩
  else if statusCode = 500 ∨ statusCode = 502 ∨ statusCode = 503 then
    ⟨.apiError, "server error (HTTP " ++ toString statusCode ++ ")"⟩
  else ⟨.apiError, "HTTP " ++ toString statusCode⟩

/-- `handleErrorResponse` from client.go: `structuredError` is the message of
the upstream error envelope when the body unmarshals as one. -/
def handleErrorResponse (statusCode : Nat) (structuredError : Option String) : GoErr :=
  match structuredError with
  | some message => mapAPIError statusCode message
  | none => mapStatusCodeError statusCode

/-- The observable outcome of the HTTP transport consumed by `makeRequest`:
status code, length of the full response body on the wire, and the two
possible parses of the (capped) body. -/
structure HTTPOutcome where
  statusCode : Nat
  bodyLen : Nat
  structuredError : Option String := none
  chatParse : Option APIChatResponse := none

/-- The response-processing stage of `Client.makeRequest`: the body is read
through `io.LimitReader` (so `min bodyLen MaxResponseSize` bytes arrive), the
cap is checked, then status-code handling, then the success parse. -/
def makeRequest (resp : HTTPOutcome) : Except GoErr APIChatResponse :=
  let respLen := min resp.bodyLen MaxResponseSize
  if respLen = MaxResponseSize then
    .error ⟨.apiError, "response too large"⟩
  else if resp.statusCode ≠ 200 then
    .error (handleErrorResponse resp.statusCode resp.structuredError)
  else
    match resp.chatParse with
    | some r => .ok r
    | none => .error ⟨.apiError, "failed to parse response"⟩

/-! ## Client.Search (client.go) -/

/-- The stages of `Client.Search` before the HTTP call: validation, default
model substitution, and conversion to the wire request. -/
def searchWireRequest (pf : String → Option Rat) (req : SearchRequest) :
    Except GoErr APIChatRequest :=
  match req.validate with
  | some e => .error ⟨.invalidRequest, "invalid request parameters: " ++ e.msg⟩
  | none =>
    let req2 := if req.model = "" then { req with model := DefaultModel } else req
    match SearchRequestToAPI pf req2 with
    | .ok a => .ok a
    | .error e => .error ⟨e.kind, "failed to convert search request: " ++ e.msg⟩

/-- `Client.Search`: the upstream HTTP exchange is the `upstream` parameter;
the returned boolean records whether the HTTP call was issued. -/
def clientSearch (pf : String → Option Rat)
    (upstream : APIChatRequest → Except GoErr APIChatResponse)
    (req : SearchRequest) : Except GoErr SearchResult × Bool :=
  match searchWireRequest pf req with
  | .error e => (.error e, false)
  | .ok apiReq =>
    match upstream apiReq with
    | .error e => (.error e, true)
    | .ok apiResp => (.ok (APIResponseToSearchResult apiResp), true)

/-! ## Tool registry (internal/adapters/mcp/server.go) -/

/-- The opaque `map[string]any` argument payload handed to a tool. -/
abbrev Args := List (String × String)

structure ToolResult where
  content : String
  isError : Bool
  metadata : List (String × String) := []
  citations : List Citation := []
deriving DecidableEq, Repr

structure ToolInfo where
  name : String
  description : String
  inputSchema : List String
deriving DecidableEq, Repr

/-- A registered capability (`domain.Tool`): name, description, schema and
an execute function returning either a result or a Go error message. -/
structure Tool where
  name : String
  description : String
  inputSchema : List String
  exec : Args → Except String ToolResult

/-- The registry map `Server.tools`, as an association list. -/
abbrev Registry := List (String × Tool)

/-- Go map read `s.tools[name]`. -/
def mapLookup (m : Registry) (name : String) : Option Tool :=
  (m.find? fun p => p.1 = name).map Prod.snd

/-- Go map write `s.tools[name] = tool`: replace the entry if the key is
present, append it otherwise. -/
def mapInsert (m : Registry) (name : String) (tool : Tool) : Registry :=
  if m.any fun p => p.1 = name then
    m.map fun p => if p.1 = name then (name, tool) else p
  else m ++ [(name, tool)]

/-- The nil-check and name-match check of `Server.RegisterTool`, after the
empty-name check has passed. -/
def registerNamed (m : Registry) (name : String) : Option Tool → Registry × Option GoErr
  | none => (m, some ⟨.invalidRequest, "tool cannot be nil"⟩)
  | some t =>
    if t.name ≠ name then (m, some ⟨.invalidRequest, "tool name mismatch"⟩)
    else (mapInsert m name t, none)

/-- `Server.RegisterTool`: the argument is `Option Tool` because the Go
parameter may be nil.  The returned registry is the post-call `s.tools`
map: the method writes it only after all checks pass. -/
def RegisterTool (m : Registry) (name : String) (tool : Option Tool) :
    Registry × Option GoErr :=
  if name = "" then (m, some ⟨.invalidRequest, "tool name cannot be empty"⟩)
  else registerNamed m name tool

lemma registerNamed_none (m : Registry) (name : String) :
    registerNamed m name none = (m, some ⟨.invalidRequest, "tool cannot be nil"⟩) := rfl

lemma registerNamed_some (m : Registry) (name : String) (t : Tool) :
    registerNamed m name (some t) =
      if t.name ≠ name then (m, some ⟨.invalidRequest, "tool name mismatch"⟩)
      else (mapInsert m name t, none) := rfl

/-- `Server.ListTools`: a snapshot of ToolInfo for every map entry. -/
def ListTools (m : Registry) : List ToolInfo :=
  m.map fun p => ⟨p.2.name, p.2.description, p.2.inputSchema⟩

/-- The dual return of `Server.ExecuteTool`: the Go method returns a
(possibly nil) `*ToolResult` together with a (possibly nil) error. -/
inductive ExecOutcome where
  | success (r : ToolResult)
  | failure (r : ToolResult) (e : GoErr)

/-- `Server.ExecuteTool`. -/
def ExecuteTool (m : Registry) (name : String) (args : Args) : ExecOutcome :=
  match mapLookup m name with
  | none =>
      .failure ⟨"Tool " ++ name ++ " not found", true, [], []⟩
        ⟨.toolNotFound, "tool " ++ name ++ " not found"⟩
  | some tool =>
    match tool.exec args with
    | .error msg =>
        .failure
          ⟨"Tool execution failed: " ++ msg, true,
            [("tool_name", name), ("error_type", "execution_error")], []⟩
          ⟨.toolExecution, msg⟩
    | .ok result => .success result

/-! ## Protocol dispatcher (MCPHandler.HandleRequest) -/

structure ToolCallParams where
  name : String
  arguments : Args
deriving DecidableEq, Repr

/-- The `params` field of an envelope, by the outcome of re-decoding it as
`ToolCallParams` (absent params decode to the zero value, name ""). -/
inductive MCPParams where
  | malformed
  | decoded (p : ToolCallParams)
deriving DecidableEq, Repr

/-- A parsed JSON-RPC request envelope. -/
structure MCPRequest where
  jsonrpc : String
  id : Option String := none
  method : String
  params : MCPParams := .decoded ⟨"", []⟩
deriving DecidableEq, Repr

structure ToolCallResult where
  content : String
  isError : Bool
  metadata : List (String × String)
  citations : List Citation
deriving DecidableEq, Repr

inductive MCPResult where
  | toolList (tools : List ToolInfo)
  | toolCall (r : ToolCallResult)
deriving DecidableEq, Repr

structure MCPErrorObj where
  code : Int
  message : String
deriving DecidableEq, Repr

/-- A JSON-RPC response: id plus result-or-error. -/
structure MCPResponse where
  id : Option String
  result : Option MCPResult
  error : Option MCPErrorObj
deriving DecidableEq, Repr

def errorResponse (id : Option String) (code : Int) (message : String) : MCPResponse :=
  ⟨id, none, some ⟨code, message⟩⟩

/-- `handleToolsList`: ListTools never fails, so this always succeeds. -/
def handleToolsList (m : Registry) : Except GoErr MCPResult :=
  .ok (.toolList (ListTools m))

/-- `handleToolCall`. -/
def handleToolCall (m : Registry) (params : MCPParams) : Except GoErr MCPResult :=
  match params with
  | .malformed => .error ⟨.plain, "invalid tool call parameters"⟩
  | .decoded p =>
    if p.name = "" then .error ⟨.invalidRequest, "tool name is required"⟩
    else
      match ExecuteTool m p.name p.arguments with
      | .failure _ e => .error ⟨e.kind, "tool execution failed: " ++ e.msg⟩
      | .success r => .ok (.toolCall ⟨r.content, r.isError, r.metadata, r.citations⟩)

/-- The version check and method routing of `HandleRequest`, once the
envelope has parsed. -/
def handleParsed (m : Registry) (req : MCPRequest) : MCPResponse :=
  if req.jsonrpc ≠ "2.0" then errorResponse req.id (-32600) "Invalid JSONRPC version"
  else if req.method = "tools/list" then
    match handleToolsList m with
    | .ok r => ⟨req.id, some r, none⟩
    | .error _ => errorResponse req.id (-32000) "Server error"
  else if req.method = "tools/call" then
    match handleToolCall m req.params with
    | .ok r => ⟨req.id, some r, none⟩
    | .error _ => errorResponse req.id (-32000) "Server error"
  else errorResponse req.id (-32601) ("Method not found: " ++ req.method)

/-- `MCPHandler.HandleRequest` over the outcome of parsing the raw bytes as
a request envelope (`none` = `json.Unmarshal` failed). -/
def HandleRequest (m : Registry) : Option MCPRequest → MCPResponse
  | none => errorResponse none (-32700) "Parse error"
  | some req => handleParsed m req

lemma HandleRequest_none (m : Registry) :
    HandleRequest m none = errorResponse none (-32700) "Parse error" := rfl

lemma HandleRequest_some (m : Registry) (req : MCPRequest) :
    HandleRequest m (some req) = handleParsed m req := rfl

/-! ## Registry map lemmas -/

lemma mapLookup_cons (x : String × Tool) (xs : Registry) (name : String) :
    mapLookup (x :: xs) name = if x.1 = name then some x.2 else mapLookup xs name := by
  unfold mapLookup
  by_cases h : x.1 = name
  · rw [List.find?_cons_of_pos _ (by simpa using h), if_pos h]
    rfl
  · rw [List.find?_cons_of_neg _ (by simpa using h), if_neg h]

lemma mapLookup_replace_ne (rest : Registry) (name k : String) (t : Tool) (hk : k ≠ name) :
    mapLookup (rest.map fun p => if p.1 = name then (name, t) else p) k =
      mapLookup rest k := by
  induction rest with
  | nil => rfl
  | cons p rs ih =>
    rw [List.map_cons, mapLookup_cons, mapLookup_cons]
    by_cases hp : p.1 = name
    · rw [if_pos hp]
      rw [show ((name, t) : String × Tool).1 = name from rfl] at *
      rw [if_neg (fun h => hk h.symm), if_neg (fun h => hk (hp ▸ h).symm)]
      exact ih
    · rw [if_neg hp]
      by_cases hpk : p.1 = k
      · rw [if_pos hpk, if_pos hpk]
      · rw [if_neg hpk, if_neg hpk]
        exact ih

lemma mapLookup_replace_self (rest : Registry) (name : String) (t : Tool)
    (hany : (rest.any fun p => p.1 = name) = true) :
    mapLookup (rest.map fun p => if p.1 = name then (name, t) else p) name = some t := by
  induction rest with
  | nil => simp at hany
  | cons p rs ih =>
    rw [List.map_cons, mapLookup_cons]
    by_cases hp : p.1 = name
    · rw [if_pos hp]
      simp
    · rw [if_neg hp, if_neg hp]
      apply ih
      simp only [List.any_cons, Bool.or_eq_true, decide_eq_true_eq] at hany
      rcases hany with h | h
      · exact absurd h hp
      · exact h

lemma mapLookup_append_single (m : Registry) (name k : String) (t : Tool) :
    mapLookup (m ++ [(name, t)]) k =
      match mapLookup m k with
      | some v => some v
      | none => if k = name then some t else none := by
  unfold mapLookup
  rw [List.find?_append]
  rcases hf : m.find? fun p => p.1 = k with _ | p
  · rw [hf, Option.none_or]
    by_cases h : k = name
    · subst h
      rw [List.find?_cons_of_pos _ (by simp)]
      simp
    · rw [List.find?_cons_of_neg _ (by simpa using fun hh => h hh.symm)]
      simp [h]
  · rw [hf]
    rfl

lemma mapLookup_any (m : Registry) (name : String)
    (hnone : (m.any fun p => p.1 = name) = false) : mapLookup m name = none := by
  unfold mapLookup
  have h2 : (m.find? fun p => p.1 = name) = none := by
    rw [List.find?_eq_none]
    intro p hp
    simp only [List.any_eq_false] at hnone
    simpa using hnone p hp
  rw [h2]
  rfl

/-- The single observable effect of a successful registration: the name now
binds the new tool and every other binding is untouched. -/
lemma mapLookup_mapInsert (m : Registry) (name k : String) (t : Tool) :
    mapLookup (mapInsert m name t) k = if k = name then some t else mapLookup m k := by
  unfold mapInsert
  split
  case isTrue hany =>
    by_cases hk : k = name
    · rw [if_pos hk, hk]
      exact mapLookup_replace_self m name t hany
    · rw [if_neg hk]
      exact mapLookup_replace_ne m name k t hk
  case isFalse hany =>
    rw [mapLookup_append_single]
    have hm : mapLookup m name = none :=
      mapLookup_any m name (by simp only [Bool.not_eq_true] at hany; exact hany)
    by_cases hk : k = name
    · subst hk
      rw [hm]
    · rcases hmk : mapLookup m k with _ | v
      · simp [hmk, hk]
      · simp [hmk, hk]

lemma length_mapInsert_present (m : Registry) (name : String) (t : Tool)
    (hany : (m.any fun p => p.1 = name) = true) :
    (mapInsert m name t).length = m.length := by
  unfold mapInsert
  rw [if_pos hany, List.length_map]

lemma mem_mapInsert (m : Registry) (name : String) (t : Tool) :
    (name, t) ∈ mapInsert m name t := by
  unfold mapInsert
  split
  case isTrue hany =>
    simp only [List.any_eq_true, decide_eq_true_eq] at hany
    rcases hany with ⟨p, hp, hpn⟩
    have hmem := List.mem_map_of_mem (fun q => if q.1 = name then (name, t) else q) hp
    simpa [hpn] using hmem
  case isFalse hany =>
    exact List.mem_append_right _ (by simp)

/-! ## Concrete fixtures used by witnesses -/

/-- A ParseFloat stand-in that never parses; witnesses instantiate the
abstract parser parameter with it. -/
def pfNone : String → Option Rat := fun _ => none

/-- An upstream transport that always fails; validation-stage theorems never
reach it. -/
def upstreamDown : APIChatRequest → Except GoErr APIChatResponse :=
  fun _ => .error ⟨.networkError, "connection refused"⟩

/-! ## Claims -/

/-- C2: `SearchRequest.Validate` returns nil exactly when the query is
non-blank after trimming and at most 10,000 chars long, the model is empty
or a recognized sonar identifier, search_mode and date_range are empty or
recognized, max_tokens lies in [0, 128000], there are at most 10 sources,
and at most 20 options each with key at most 100 and value at most 1,000
chars; and on any violation `Client.Search` returns an error wrapping
ErrInvalidRequest without issuing the upstream HTTP call (the issued flag
stays false, whatever the upstream would do). -/
theorem c2_validate_characterization (pf : String → Option Rat)
    (upstream : APIChatRequest → Except GoErr APIChatResponse) (r : SearchRequest) :
    (r.validate = none ↔ ValidSearchRequest r) ∧
    (r.validate ≠ none →
      (clientSearch pf upstream r).2 = false ∧
      ∃ msg, (clientSearch pf upstream r).1 = .error ⟨.invalidRequest, msg⟩) := by
  refine ⟨validate_eq_none_iff r, fun h => ?_⟩
  rcases hv : r.validate with _ | e
  · exact absurd hv h
  · have hc : clientSearch pf upstream r =
        (.error ⟨.invalidRequest, "invalid request parameters: " ++ e.msg⟩, false) := by
      unfold clientSearch searchWireRequest
      rw [hv]
    rw [hc]
    exact ⟨rfl, _, rfl⟩

/-- Witness for C2 at the blank query `" "`. -/
theorem c2_witness :
    SearchRequest.validate { query := " " } ≠ none ∧
    (clientSearch pfNone upstreamDown { query := " " }).2 = false ∧
    (clientSearch pfNone upstreamDown { query := " " }).1 =
      .error ⟨.invalidRequest, "invalid request parameters: invalid search query"⟩ := by
  have h := (c2_validate_characterization pfNone upstreamDown { query := " " }).2 (by decide)
  exact ⟨by decide, h.1, by decide⟩

/-- C3: executing an unregistered tool name yields, simultaneously, a
ToolResult with IsError true and an error wrapping ErrToolNotFound, for any
argument map. -/
theorem c3_unknown_tool (m : Registry) (name : String) (args : Args)
    (h : mapLookup m name = none) :
    ∃ r e, ExecuteTool m name args = .failure r e ∧
      r.isError = true ∧ e.kind = ErrKind.toolNotFound := by
  refine ⟨⟨"Tool " ++ name ++ " not found", true, [], []⟩,
    ⟨.toolNotFound, "tool " ++ name ++ " not found"⟩, ?_, rfl, rfl⟩
  unfold ExecuteTool
  rw [h]

/-- Witness for C3 on the empty registry. -/
theorem c3_witness :
    mapLookup [] "missing" = none ∧
    ExecuteTool [] "missing" [] =
      .failure ⟨"Tool missing not found", true, [], []⟩
        ⟨.toolNotFound, "tool missing not found"⟩ := by
  obtain ⟨r, e, he, hr, hk⟩ := c3_unknown_tool [] "missing" [] rfl
  exact ⟨rfl, rfl⟩

/-- C4: for every non-2xx status the domain error kind is fixed by the
status code alone, identically whether or not the body parsed as a
structured error envelope: 400 wraps ErrInvalidRequest, 401 wraps the
auth-kind sentinel (ErrAPIKeyMissing), 429 wraps ErrRateLimited, 500/502/503
wrap ErrAPIError, and any other status wraps ErrAPIError with the status
code echoed in the message. -/
theorem c4_status_code_mapping (statusCode : Nat) (structuredError : Option String)
    (hns : statusCode < 200 ∨ 300 ≤ statusCode) :
    (handleErrorResponse statusCode structuredError).kind =
      (if statusCode = 400 then ErrKind.invalidRequest
        else if statusCode = 401 then ErrKind.apiKeyMissing
        else if statusCode = 429 then ErrKind.rateLimited
        else ErrKind.apiError) ∧
    (statusCode ∉ [400, 401, 429, 500, 502, 503] →
      ∃ rest, (handleErrorResponse statusCode structuredError).msg =
        "HTTP " ++ toString statusCode ++ rest) := by
  constructor
  · rcases structuredError with _ | message
    · unfold handleErrorResponse mapStatusCodeError
      split_ifs <;> rfl
    · unfold handleErrorResponse mapAPIError
      split_ifs <;> rfl
  · intro hnotin
    simp only [List.mem_cons, List.not_mem_nil, or_false, not_or] at hnotin
    rcases structuredError with _ | message
    · unfold handleErrorResponse mapStatusCodeError
      split_ifs <;> simp_all
      exact ⟨"", (String.append_empty _).symm⟩
    · unfold handleErrorResponse mapAPIError
      split_ifs <;> simp_all
      exact ⟨": " ++ message, String.append_assoc _ _ _⟩

/-- Witness for C4 at status 404 with a structured error body. -/
theorem c4_witness :
    ((404 : Nat) < 200 ∨ 300 ≤ 404) ∧
    (handleErrorResponse 404 (some "resource missing")).kind = ErrKind.apiError := by
  have h := (c4_status_code_mapping 404 (some "resource missing") (by decide)).1
  exact ⟨by decide, by simpa using h⟩

/-- An options map with a `search_domain_filter` of eleven short domains:
no value is oversized, yet option processing fails the whole request. -/
def elevenDomainOptions : List (String × String) :=
  [("search_domain_filter", "a,b,c,d,e,f,g,h,i,j,k")]

/-- C5 counterexample: the claim says an oversized option value is the only
per-option condition that fails the whole request, but a
`search_domain_filter` whose (well-sized) value yields more than 10 valid
domains also fails it. -/
theorem c5_counterexample :
    (processSearchOptions pfNone (initialAPIRequest { query := "q" })
        elevenDomainOptions).isOk = false ∧
    (elevenDomainOptions.all fun kv => decide (kv.2.length ≤ MaxOptionValueLength)) = true := by
  decide

/-- C5 (amended): option processing fails the whole request exactly when
some entry passes the key-length gate (over-long keys are skipped) and
either its value exceeds 1,000 chars, or it is a `search_domain_filter`
whose comma-separated value yields more than 10 valid domains.  Every other
per-option violation (out-of-range temperature or top_p, unparseable
disable_search, invalid search_mode value, over-long key, over-long or
malformed individual domain) is silently dropped. -/
theorem c5_option_failure_characterization (pf : String → Option Rat)
    (apiReq : APIChatRequest) (opts : List (String × String)) :
    (∃ e, processSearchOptions pf apiReq opts = .error e) ↔
      ∃ kv ∈ opts, kv.1.length ≤ MaxOptionKeyLength ∧
        (kv.2.length > MaxOptionValueLength ∨
          (toLowerGo kv.1 = "search_domain_filter" ∧
            (parseDomainFilter kv.2).length > 10)) := by
  rw [processSearchOptions_error_iff]
  unfold optionFails
  constructor <;>
    · rintro ⟨kv, hmem, hf⟩
      refine ⟨kv, hmem, ?_⟩
      simp only [Bool.and_eq_true, Bool.or_eq_true, decide_eq_true_eq] at hf ⊢
      exact hf

/-- C6: a response body that reaches the 10 MiB cap through the size-capped
reader yields the "response too large" APIError (never a result built from
truncated data), while a body strictly under the cap is never rejected for
size: every under-cap outcome is characterized — a 200 status whose body
parses succeeds, a 200 status whose body does not parse gives the parse
ErrAPIError, and a non-200 status gives exactly the status-mapped error. -/
theorem c6_response_size_cap (resp : HTTPOutcome) :
    (MaxResponseSize ≤ resp.bodyLen →
      makeRequest resp = .error ⟨.apiError, "response too large"⟩) ∧
    (resp.bodyLen < MaxResponseSize → resp.statusCode = 200 →
      ∀ r, resp.chatParse = some r → makeRequest resp = .ok r) ∧
    (resp.bodyLen < MaxResponseSize → resp.statusCode = 200 → resp.chatParse = none →
      makeRequest resp = .error ⟨.apiError, "failed to parse response"⟩) ∧
    (resp.bodyLen < MaxResponseSize → resp.statusCode ≠ 200 →
      makeRequest resp = .error (handleErrorResponse resp.statusCode resp.structuredError)) := by
  refine ⟨?_, ?_, ?_, ?_⟩
  · intro h
    simp only [makeRequest]
    rw [if_pos (show min resp.bodyLen MaxResponseSize = MaxResponseSize by omega)]
  · intro h1 h2 r hr
    simp only [makeRequest]
    rw [if_neg (show ¬min resp.bodyLen MaxResponseSize = MaxResponseSize by omega),
      if_neg (show ¬resp.statusCode ≠ 200 by simp [h2]), hr]
  · intro h1 h2 hr
    simp only [makeRequest]
    rw [if_neg (show ¬min resp.bodyLen MaxResponseSize = MaxResponseSize by omega),
      if_neg (show ¬resp.statusCode ≠ 200 by simp [h2]), hr]
  · intro h1 h2
    simp only [makeRequest]
    rw [if_neg (show ¬min resp.bodyLen MaxResponseSize = MaxResponseSize by omega),
      if_pos h2]

/-- Witness for C6 at a body of exactly 10 MiB. -/
theorem c6_witness :
    MaxResponseSize ≤ MaxResponseSize ∧
    makeRequest ⟨200, MaxResponseSize, none, none⟩ =
      .error ⟨.apiError, "response too large"⟩ :=
  ⟨le_refl _, (c6_response_size_cap ⟨200, MaxResponseSize, none, none⟩).1 (le_refl _)⟩

/-- C7: the response mapper copies the first choice's content (empty string
when there are no choices, with no error), the three usage counters, and the
citation and source lists element-wise in order, with absent upstream lists
mapping to the empty list. -/
theorem c7_response_mapping (apiResp : APIChatResponse) :
    (APIResponseToSearchResult apiResp).content = apiResp.getContent ∧
    (apiResp.choices = [] → (APIResponseToSearchResult apiResp).content = "") ∧
    (∀ c rest, apiResp.choices = c :: rest →
      (APIResponseToSearchResult apiResp).content = c.message.content) ∧
    (APIResponseToSearchResult apiResp).usage.promptTokens = apiResp.usage.promptTokens ∧
    (APIResponseToSearchResult apiResp).usage.completionTokens = apiResp.usage.completionTokens ∧
    (APIResponseToSearchResult apiResp).usage.totalTokens = apiResp.usage.totalTokens ∧
    (APIResponseToSearchResult apiResp).citations =
      apiResp.citations.map (fun c => ⟨c.number, c.url, c.title⟩) ∧
    (APIResponseToSearchResult apiResp).sources =
      apiResp.sources.map (fun s => ⟨s.url, s.title, s.snippet⟩) := by
  refine ⟨rfl, ?_, ?_, rfl, rfl, rfl, ?_, ?_⟩
  · intro h
    simp [APIResponseToSearchResult, APIChatResponse.getContent, h]
  · intro c rest h
    simp [APIResponseToSearchResult, APIChatResponse.getContent, h]
  · rcases h : apiResp.citations with _ | ⟨c, cs⟩ <;>
      simp [APIResponseToSearchResult, h]
  · rcases h : apiResp.sources with _ | ⟨s, ss⟩ <;>
      simp [APIResponseToSearchResult, h]

/-- The upstream response of the specification's concrete scenario. -/
def sampleChatResponse : APIChatResponse :=
  { id := "r1", model := "sonar", created := 5,
    choices := [⟨0, ⟨"assistant", "Quantum computing is a paradigm."⟩, "stop"⟩],
    usage := ⟨1, 2, 42⟩,
    citations := [⟨1, "https://example.org", "Example"⟩],
    sources := [⟨"https://example.org", "Example", "snippet"⟩] }

/-- Witness for C7 on the concrete scenario (`total_tokens` 42). -/
theorem c7_witness :
    (APIResponseToSearchResult sampleChatResponse).content =
      "Quantum computing is a paradigm." ∧
    (APIResponseToSearchResult sampleChatResponse).usage.totalTokens = 42 :=
  ⟨(c7_response_mapping sampleChatResponse).2.2.1 _ _ rfl,
    (c7_response_mapping sampleChatResponse).2.2.2.2.2.1⟩

/-- C8: a request that is otherwise valid and carries the empty model is
accepted by validation and its wire request carries the configured default
model; a non-empty (hence validated) model is passed through unchanged. -/
theorem c8_default_model (pf : String → Option Rat) (req : SearchRequest)
    (hvalid : ValidSearchRequest req) :
    (req.model = "" →
      req.validate = none ∧
      ∀ a, searchWireRequest pf req = .ok a → a.model = DefaultModel) ∧
    (req.model ≠ "" →
      ∀ a, searchWireRequest pf req = .ok a → a.model = req.model) := by
  have hv : req.validate = none := (validate_eq_none_iff req).mpr hvalid
  have hwire : searchWireRequest pf req =
      match SearchRequestToAPI pf
          (if req.model = "" then { req with model := DefaultModel } else req) with
      | .ok a => .ok a
      | .error e => .error ⟨e.kind, "failed to convert search request: " ++ e.msg⟩ := by
    unfold searchWireRequest
    rw [hv]
  constructor
  · intro hm
    refine ⟨hv, fun a ha => ?_⟩
    rw [hwire, if_pos hm] at ha
    rcases hs : SearchRequestToAPI pf { req with model := DefaultModel } with e | a2
    · rw [hs] at ha
      exact Except.noConfusion ha
    · rw [hs] at ha
      injection ha with h2
      rw [← h2, searchRequestToAPI_model pf _ a2 hs]
  · intro hm
    intro a ha
    rw [hwire, if_neg hm] at ha
    rcases hs : SearchRequestToAPI pf req with e | a2
    · rw [hs] at ha
      exact Except.noConfusion ha
    · rw [hs] at ha
      injection ha with h2
      rw [← h2, searchRequestToAPI_model pf _ a2 hs]

/-- The wire request of the C8 witness scenario. -/
def quantumWireRequest : APIChatRequest :=
  { model := "sonar", messages := [⟨"user", "What is quantum computing?"⟩] }

/-- Witness for C8 at a valid request with empty model. -/
theorem c8_witness :
    ValidSearchRequest { query := "What is quantum computing?" } ∧
    SearchRequest.validate { query := "What is quantum computing?" } = none ∧
    searchWireRequest pfNone { query := "What is quantum computing?" } =
      .ok quantumWireRequest ∧
    quantumWireRequest.model = DefaultModel := by
  have h := (c8_default_model pfNone { query := "What is quantum computing?" } (by decide)).1 rfl
  exact ⟨by decide, h.1, by decide, h.2 quantumWireRequest (by decide)⟩

/-- C9: RegisterTool rejects an empty name, a nil tool, or a tool whose
self-reported name differs from the registration key, each with an
ErrInvalidRequest; registering an already-present name succeeds (no error),
binds the name to the new tool, and replaces the old entry rather than
adding one, observably through ListTools. -/
theorem c9_register_rules (m : Registry) (name : String) (tool : Option Tool) :
    ((name = "" ∨ tool = none ∨ ∃ t, tool = some t ∧ t.name ≠ name) →
      ∃ e, (RegisterTool m name tool).2 = some e ∧ e.kind = ErrKind.invalidRequest) ∧
    (∀ t, tool = some t → t.name = name → name ≠ "" →
      (RegisterTool m name tool).2 = none ∧
      mapLookup (RegisterTool m name tool).1 name = some t ∧
      (⟨t.name, t.description, t.inputSchema⟩ : ToolInfo) ∈
        ListTools (RegisterTool m name tool).1 ∧
      ((m.any fun p => p.1 = name) = true →
        (ListTools (RegisterTool m name tool).1).length = m.length)) := by
  constructor
  · intro hbad
    unfold RegisterTool
    by_cases hn : name = ""
    · rw [if_pos hn]
      exact ⟨_, rfl, rfl⟩
    · rw [if_neg hn]
      rcases hbad with h | h | ⟨t, ht, hne⟩
      · exact absurd h hn
      · rw [h, registerNamed_none]
        exact ⟨_, rfl, rfl⟩
      · rw [ht, registerNamed_some, if_pos hne]
        exact ⟨_, rfl, rfl⟩
  · rintro t rfl heq hn
    have hreg : RegisterTool m name (some t) = (mapInsert m name t, none) := by
      unfold RegisterTool
      rw [if_neg hn, registerNamed_some, if_neg (not_not_intro heq)]
    rw [hreg]
    refine ⟨rfl, ?_, ?_, ?_⟩
    · rw [mapLookup_mapInsert]
      simp
    · exact List.mem_map_of_mem _ (mem_mapInsert m name t)
    · intro hany
      unfold ListTools
      rw [List.length_map]
      exact length_mapInsert_present m name t hany

/-- A concrete tool named alpha. -/
def toolAlpha : Tool :=
  ⟨"alpha", "first version", [], fun _ => .ok ⟨"alpha says hi", false, [], []⟩⟩

/-- A replacement tool, also named alpha. -/
def toolAlpha2 : Tool :=
  ⟨"alpha", "second version", [], fun _ => .ok ⟨"alpha v2", false, [], []⟩⟩

/-- Witness for C9: re-registering the name alpha replaces the entry. -/
theorem c9_witness :
    (RegisterTool [("alpha", toolAlpha)] "alpha" (some toolAlpha2)).2 = none ∧
    mapLookup (RegisterTool [("alpha", toolAlpha)] "alpha" (some toolAlpha2)).1 "alpha" =
      some toolAlpha2 ∧
    (⟨"alpha", "second version", []⟩ : ToolInfo) ∈
      ListTools (RegisterTool [("alpha", toolAlpha)] "alpha" (some toolAlpha2)).1 ∧
    (ListTools (RegisterTool [("alpha", toolAlpha)] "alpha" (some toolAlpha2)).1).length = 1 := by
  have h := (c9_register_rules [("alpha", toolAlpha)] "alpha" (some toolAlpha2)).2
    toolAlpha2 rfl rfl (by decide)
  exact ⟨h.1, h.2.1, h.2.2.1, h.2.2.2 (by decide)⟩

/-- C10: registration is atomic: a failing RegisterTool leaves the map
untouched, and a successful one binds exactly the given name to the given
tool, leaving every other binding unchanged. -/
theorem c10_register_atomicity (m : Registry) (name : String) (tool : Option Tool) :
    (∀ e, (RegisterTool m name tool).2 = some e → (RegisterTool m name tool).1 = m) ∧
    ((RegisterTool m name tool).2 = none →
      ∃ t, tool = some t ∧
        mapLookup (RegisterTool m name tool).1 name = some t ∧
        ∀ k, k ≠ name → mapLookup (RegisterTool m name tool).1 k = mapLookup m k) := by
  unfold RegisterTool
  by_cases hn : name = ""
  · rw [if_pos hn]
    exact ⟨fun e he => rfl, fun hc => Option.noConfusion hc⟩
  rw [if_neg hn]
  rcases tool with _ | t
  · rw [registerNamed_none]
    exact ⟨fun e he => rfl, fun hc => Option.noConfusion hc⟩
  rw [registerNamed_some]
  by_cases hne : t.name ≠ name
  · rw [if_pos hne]
    exact ⟨fun e he => rfl, fun hc => Option.noConfusion hc⟩
  · rw [if_neg hne]
    refine ⟨fun e he => Option.noConfusion he, fun _ => ⟨t, rfl, ?_, ?_⟩⟩
    · rw [mapLookup_mapInsert]
      simp
    · intro k hk
      rw [mapLookup_mapInsert, if_neg hk]

/-- Witness for C10: a successful registration on the empty registry. -/
theorem c10_witness :
    (RegisterTool ([] : Registry) "alpha" (some toolAlpha)).2 = none ∧
    mapLookup (RegisterTool ([] : Registry) "alpha" (some toolAlpha)).1 "alpha" =
      some toolAlpha ∧
    mapLookup (RegisterTool ([] : Registry) "alpha" (some toolAlpha)).1 "beta" =
      mapLookup [] "beta" := by
  obtain ⟨t, ht, hl, ho⟩ := (c10_register_atomicity [] "alpha" (some toolAlpha)).2 rfl
  injection ht with ht2
  rw [← ht2] at hl
  exact ⟨rfl, hl, ho "beta" (by decide)⟩

/-- C1: the dispatcher is a total function from the parse outcome of the
raw bytes to a single JSON-RPC response: an unparseable envelope yields
code -32700 with no id; a parsed envelope whose jsonrpc is not "2.0" yields
code -32600; a "2.0" envelope with a method other than tools/list and
tools/call yields code -32601; and every response except the parse-error
one echoes the request's id. -/
theorem c1_dispatch_codes (m : Registry) (parsed : Option MCPRequest) :
    (parsed = none →
      (HandleRequest m parsed).id = none ∧
      (HandleRequest m parsed).error = some ⟨-32700, "Parse error"⟩) ∧
    (∀ req, parsed = some req → req.jsonrpc ≠ "2.0" →
      (HandleRequest m parsed).id = req.id ∧
      (HandleRequest m parsed).error = some ⟨-32600, "Invalid JSONRPC version"⟩) ∧
    (∀ req, parsed = some req → req.jsonrpc = "2.0" →
      req.method ≠ "tools/list" → req.method ≠ "tools/call" →
      (HandleRequest m parsed).id = req.id ∧
      (HandleRequest m parsed).error =
        some ⟨-32601, "Method not found: " ++ req.method⟩) ∧
    (∀ req, parsed = some req → (HandleRequest m parsed).id = req.id) := by
  refine ⟨?_, ?_, ?_, ?_⟩
  · rintro rfl
    exact ⟨rfl, rfl⟩
  · rintro req rfl hv
    rw [HandleRequest_some]
    unfold handleParsed
    rw [if_pos hv]
    exact ⟨rfl, rfl⟩
  · rintro req rfl hv h1 h2
    rw [HandleRequest_some]
    unfold handleParsed
    rw [if_neg (not_not_intro hv), if_neg h1, if_neg h2]
    exact ⟨rfl, rfl⟩
  · rintro req rfl
    rw [HandleRequest_some]
    unfold handleParsed
    by_cases hv : req.jsonrpc ≠ "2.0"
    · rw [if_pos hv]
      rfl
    · rw [if_neg hv]
      by_cases h1 : req.method = "tools/list"
      · rw [if_pos h1]
        rfl
      · rw [if_neg h1]
        by_cases h2 : req.method = "tools/call"
        · rw [if_pos h2]
          rcases hc : handleToolCall m req.params with e | r
          · rfl
          · rfl
        · rw [if_neg h2]
          rfl

/-- Witness for C1: the specification's concrete scenario, a request with
jsonrpc "1.0". -/
theorem c1_witness :
    (HandleRequest [] (some { jsonrpc := "1.0", id := some "7", method := "tools/list" })).id =
      some "7" ∧
    (HandleRequest [] (some { jsonrpc := "1.0", id := some "7", method := "tools/list" })).error =
      some ⟨-32600, "Invalid JSONRPC version"⟩ := by
  have h := (c1_dispatch_codes [] (some { jsonrpc := "1.0", id := some "7", method := "tools/list" })).2.1
    { jsonrpc := "1.0", id := some "7", method := "tools/list" } rfl (by decide)
  exact ⟨h.1, h.2⟩

end PMCP
